import Mathlib

/-!
Verification development for the player / puzzle-object excerpt of a small
browser game (two TypeScript modules: the `Player` class and the
`puzzleObject` module with its registry and `PuzzleObjectSpawner`).

Modelling conventions:
* JavaScript object references are modelled by natural-number identities
  (`Ref`); reference equality (`===`) is equality of identities.
* A JavaScript value that may be `undefined` is modelled as `Option Ref`
  (`JsVal`), with `none` playing the role of `undefined`.  Indexing a
  registry object with a missing key yields `none`.
* JavaScript numbers are modelled as rationals (`Rat`); the arithmetic in
  this excerpt (`+ - * max min abs <`) is exact on the values that occur.
* Registries (plain JS objects used as string-keyed maps) are association
  lists in insertion order, matching `Object.entries` enumeration order.
* External collaborators that only produce side effects invisible to these
  claims (hotbar UI, detail windows, audio, toasts, the global save hook,
  image loading) are omitted: the embedded operations are the state
  transformers on the fields the source mutates.  Exceptions thrown by the
  code itself are modelled with `Except String`.
-/

/-- A JavaScript object reference identity. -/
abbrev Ref := Nat

/-- A JavaScript value that is either an object reference or `undefined`
(`none`). -/
abbrev JsVal := Option Ref

/-- A string-keyed registry object, kept in insertion order. -/
abbrev Registry := List (String × Ref)

/-- JS property read `reg[key]`: the value of the first entry with the key,
or `undefined` when the key is absent. -/
def regGet (reg : Registry) (key : String) : JsVal :=
  (reg.find? (fun e => e.1 == key)).map (fun e => e.2)

/-- JS `Array.prototype.indexOf`: index of the first strictly-equal element,
`-1` when absent. -/
def jsIndexOf (l : List JsVal) (a : JsVal) : Int :=
  match l.findIdx? (fun b => b == a) with
  | some i => Int.ofNat i
  | none => -1

/-- The actual start index used by `Array.prototype.splice`: a negative
`start` counts from the end (clamped at 0), a nonnegative one is clamped at
the length. -/
def jsSpliceStart (len : Nat) (start : Int) : Nat :=
  if start < 0 then (max ((len : Int) + start) 0).toNat else min start.toNat len

/-- `arr.splice(start, 1)`: remove (at most) one element at the actual start
index. -/
def jsSpliceDelete1 (l : List JsVal) (start : Int) : List JsVal :=
  let s := jsSpliceStart l.length start
  l.take s ++ l.drop (s + 1)

/-- `arr.splice(start, 1, item)`: remove (at most) one element at the actual
start index and insert `item` there. -/
def jsSpliceReplace1 (l : List JsVal) (start : Int) (item : JsVal) : List JsVal :=
  let s := jsSpliceStart l.length start
  l.take s ++ item :: l.drop (s + 1)

/-- JS `Array.prototype.find` with a predicate that may throw: elements are
tested left to right, the first throw aborts the search, the first match is
returned, and `none` stands for the `undefined` result of a failed search. -/
def jsFindE (pred : JsVal → Except String Bool) : List JsVal → Except String (Option JsVal)
  | [] => Except.ok none
  | a :: rest =>
    match pred a with
    | Except.error e => Except.error e
    | Except.ok true => Except.ok (some a)
    | Except.ok false => jsFindE pred rest

/-- Reverse registry lookup, the shape shared by `getPuzzleObjectType` and
`getMaterialType`: `Object.entries(reg).find(([_, v]) => v === x)`, throwing
when no entry has the value. -/
def reverseLookup (reg : Registry) (errMsg : String) (v : JsVal) : Except String String :=
  match reg.find? (fun e => (some e.2 : JsVal) == v) with
  | some e => Except.ok e.1
  | none => Except.error errMsg

/-- Whether `v` is (a reference to) one of the values of the registry. -/
def isRegValue (reg : Registry) (v : JsVal) : Bool :=
  reg.any (fun e => (some e.2 : JsVal) == v)

/-- The `puzzleObjects` registry of `puzzleObject.ts`: five distinct
definition objects, here abstracted to their reference identities 0..4 (the
name / description / image fields are consumed only by the UI collaborators,
which are outside this excerpt). -/
def puzzleObjects : Registry :=
  [("key", 0), ("small-key", 1), ("big-key", 2), ("radio", 3), ("gravity-stone", 4)]

/-- `getPuzzleObjectType` of `puzzleObject.ts`: reverse lookup of a
definition reference in `puzzleObjects`, throwing `PuzzleObject not found.`
when the reference is not a registry value. -/
def getPuzzleObjectType (v : JsVal) : Except String String :=
  reverseLookup puzzleObjects "PuzzleObject not found." v

/-- Modelled from the spec: the material registry of the missing
`material.js` module, "a fixed mapping from string identifier to immutable
object definition"; its concrete entries are not part of this excerpt, so
operations take it as a parameter. -/
def getMaterialType (matsReg : Registry) (v : JsVal) : Except String String :=
  reverseLookup matsReg "Material not found." v

/-- Modelled from the spec: a potion is a "transformation rule mapping one
definition type to another" with fields `applyTo` and `turnsInto` (registry
keys); the rest of the missing `potions.js` module is not consumed by
`Player`. -/
structure Potion where
  applyTo : String
  turnsInto : String
deriving Repr, DecidableEq

/-- The mutable `Player` state of `player.js`: position, movement target,
material-inventory capacity, and the two held-item arrays.  The constant
`z = 1`, the optional room back-reference and the hotbar UI projection are
omitted (unread by the embedded operations). -/
structure Player where
  x : Rat
  y : Rat
  targetX : Rat
  materialInventorySize : Nat
  heldMaterials : List JsVal
  heldPuzzleObjects : List JsVal
deriving Repr, DecidableEq

/-- `Player.tick(dt)`: move `x` toward `targetX` by at most `500 * dt`,
clamped at `targetX`. -/
def Player.tick (p : Player) (dt : Rat) : Player :=
  let maxMovement := 500 * dt
  if p.x > p.targetX then { p with x := max (p.x - maxMovement) p.targetX }
  else if p.x < p.targetX then { p with x := min (p.x + maxMovement) p.targetX }
  else p

/-- `Player.canReach(x, _y)`: the horizontal distance to the avatar is
strictly below 200. -/
def Player.canReach (p : Player) (x : Rat) (_y : Rat) : Bool :=
  |x - p.x| < 200

/-- `Player.moveToCursor(x)`: set the movement target. -/
def Player.moveToCursor (p : Player) (x : Rat) : Player :=
  { p with targetX := x }

/-- `Player.hasMaterial(mat)`: `heldMaterials.indexOf(mat) !== -1`. -/
def Player.hasMaterial (p : Player) (mat : JsVal) : Bool :=
  jsIndexOf p.heldMaterials mat != -1

/-- `Player.hasPuzzleObject(obj)`: `heldPuzzleObjects.indexOf(obj) !== -1`. -/
def Player.hasPuzzleObject (p : Player) (obj : JsVal) : Bool :=
  jsIndexOf p.heldPuzzleObjects obj != -1

/-- `Player.takeMaterial(mat)`: reject (returning with no state change) when
the inventory is at or above capacity or the material is already held;
otherwise push it.  The sound cues, toast, hotbar entry and save trigger are
external side effects with no bearing on the player state. -/
def Player.takeMaterial (p : Player) (mat : JsVal) : Player :=
  if p.heldMaterials.length ≥ p.materialInventorySize then p
  else if p.hasMaterial mat then p
  else { p with heldMaterials := p.heldMaterials ++ [mat] }

/-- `Player.takePuzzleObject(obj)`: unconditional push (no capacity or
duplicate check); the chime, hotbar entry and save trigger are external. -/
def Player.takePuzzleObject (p : Player) (obj : JsVal) : Player :=
  { p with heldPuzzleObjects := p.heldPuzzleObjects ++ [obj] }

/-- `Player.tossPuzzleObject(obj)`:
`heldPuzzleObjects.splice(heldPuzzleObjects.indexOf(obj), 1)`; the hotbar
removal is external. -/
def Player.tossPuzzleObject (p : Player) (obj : JsVal) : Player :=
  { p with heldPuzzleObjects :=
      jsSpliceDelete1 p.heldPuzzleObjects (jsIndexOf p.heldPuzzleObjects obj) }

/-- `Player.applyPotion(potion)`: search held materials, then held puzzle
objects, for an item whose registry type equals `potion.applyTo` (both
searches run before the branch, as in the source, so either may throw);
replace the first material match — or, failing that, the first puzzle-object
match — in place by the registry value of `potion.turnsInto` (JS yields
`undefined` when that key is absent) and return `true`; with no match return
`false`. -/
def Player.applyPotion (matsReg : Registry) (p : Player) (potion : Potion) :
    Except String (Player × Bool) :=
  match jsFindE (fun mat => (getMaterialType matsReg mat).map (fun t => t == potion.applyTo))
      p.heldMaterials with
  | Except.error e => Except.error e
  | Except.ok materialToApplyTo =>
    match jsFindE (fun po => (getPuzzleObjectType po).map (fun t => t == potion.applyTo))
        p.heldPuzzleObjects with
    | Except.error e => Except.error e
    | Except.ok puzzleObjectToApplyTo =>
      match materialToApplyTo with
      | some (some m) =>
        let newMaterial := regGet matsReg potion.turnsInto
        let hm := jsSpliceReplace1 p.heldMaterials (jsIndexOf p.heldMaterials (some m)) newMaterial
        Except.ok ({ p with heldMaterials := hm }, true)
      | _ =>
        match puzzleObjectToApplyTo with
        | some (some po) =>
          let newPuzzleObject := regGet puzzleObjects potion.turnsInto
          let hp := jsSpliceReplace1 p.heldPuzzleObjects
            (jsIndexOf p.heldPuzzleObjects (some po)) newPuzzleObject
          Except.ok ({ p with heldPuzzleObjects := hp }, true)
        | _ => Except.ok (p, false)

/-- The persisted `PlayerData` record: position, both inventories by
registry key, and the optional capacity. -/
structure PlayerData where
  x : Rat
  y : Rat
  heldMaterials : List String
  heldPuzzleObjects : List String
  materialInventorySize : Option Nat
deriving Repr, DecidableEq

/-- `Player.serialize()`: position, the held inventories mapped through the
reverse registry lookups (left to right, so a non-registry reference
throws), and the capacity. -/
def Player.serialize (matsReg : Registry) (p : Player) : Except String PlayerData :=
  match p.heldMaterials.mapM (getMaterialType matsReg) with
  | Except.error e => Except.error e
  | Except.ok hm =>
    match p.heldPuzzleObjects.mapM getPuzzleObjectType with
    | Except.error e => Except.error e
    | Except.ok hp =>
      Except.ok
        { x := p.x, y := p.y, heldMaterials := hm, heldPuzzleObjects := hp,
          materialInventorySize := some p.materialInventorySize }

/-- The `Player` constructor (the synchronous part of the deserialize path;
`Player.deserialize` only loads the two sprite images, which are external):
start at the saved position with `targetX = x`, capacity defaulting to 5,
then re-take every saved material and puzzle object through the ordinary
mutators (indexing the registries, so an unknown key takes `undefined`). -/
def Player.ofData (matsReg : Registry) (data : PlayerData) : Player :=
  let p0 : Player :=
    { x := data.x, y := data.y, targetX := data.x,
      materialInventorySize := data.materialInventorySize.getD 5,
      heldMaterials := [], heldPuzzleObjects := [] }
  let p1 := data.heldMaterials.foldl (fun p key => p.takeMaterial (regGet matsReg key)) p0
  data.heldPuzzleObjects.foldl (fun p key => p.takePuzzleObject (regGet puzzleObjects key)) p1

/-- An image as far as this excerpt reads it: its pixel dimensions. -/
structure Image where
  width : Rat
  height : Rat
deriving Repr, DecidableEq

/-- The persisted `PuzzleObjectData` record. -/
structure PuzzleObjectData where
  x : Rat
  y : Rat
  puzzleObjectType : String
deriving Repr, DecidableEq

/-- The `PuzzleObjectSpawner` state: position, dimensions copied from the
world image, and the wrapped definition reference. -/
structure PuzzleObjectSpawner where
  x : Rat
  y : Rat
  width : Rat
  height : Rat
  puzzleObject : Ref
deriving Repr, DecidableEq

/-- `PuzzleObjectSpawner.deserialize(data)`: look the definition up by key,
throwing `Cannot find puzzle object with name ...` when the key is absent;
otherwise construct the spawner from the loaded world image (image loading
itself is external, so the image is a parameter). -/
def PuzzleObjectSpawner.deserialize (data : PuzzleObjectData) (worldImage : Image) :
    Except String PuzzleObjectSpawner :=
  match regGet puzzleObjects data.puzzleObjectType with
  | none => Except.error ("Cannot find puzzle object with name " ++ data.puzzleObjectType)
  | some r =>
    Except.ok
      { x := data.x, y := data.y, width := worldImage.width, height := worldImage.height,
        puzzleObject := r }

/-- `PuzzleObjectSpawner.isUnderPointer(x, y)`: axis-aligned half-extent box
containment. -/
def PuzzleObjectSpawner.isUnderPointer (s : PuzzleObjectSpawner) (x y : Rat) : Bool :=
  !(|s.x - x| > s.width / 2 || |s.y - y| > s.height / 2)

/-- `PuzzleObjectSpawner.isVisible()`: false with no bound room/player
(collapsed to an `Option Player` parameter, the room being external),
otherwise the negation of `player.hasPuzzleObject(this.puzzleObject)`. -/
def PuzzleObjectSpawner.isVisible (s : PuzzleObjectSpawner) (player : Option Player) : Bool :=
  match player with
  | none => false
  | some p => !(p.hasPuzzleObject (some s.puzzleObject))

instance {e a : Type} [DecidableEq e] [DecidableEq a] : DecidableEq (Except e a) := fun x y =>
  match x, y with
  | Except.ok v, Except.ok w =>
    if h : v = w then isTrue (h ▸ rfl) else isFalse (fun hc => h (Except.ok.inj hc))
  | Except.error v, Except.error w =>
    if h : v = w then isTrue (h ▸ rfl) else isFalse (fun hc => h (Except.error.inj hc))
  | Except.ok _, Except.error _ => isFalse (fun hc => Except.noConfusion hc)
  | Except.error _, Except.ok _ => isFalse (fun hc => Except.noConfusion hc)

/-! ### Concrete registries, players and spawners used by the witnesses -/

def playerW3 : Player := ⟨0, 0, 0, 2, [some 100], []⟩
def playerW4 : Player := ⟨0, 0, 0, 5, [some 100], []⟩
def playerW8 : Player := ⟨1000, 7, 0, 5, [some 100], [some 0]⟩
def playerW10 : Player := ⟨0, 0, 0, 5, [], [some 0, some 3]⟩
def spawnerC6 : PuzzleObjectSpawner := ⟨0, 0, 1, 1, 0⟩
def playerC6 : Player := ⟨0, 0, 0, 5, [], []⟩
def matsRegW : Registry := [("wood", 100), ("stone", 101), ("gem", 102)]
def playerW9 : Player := ⟨0, 0, 0, 5, [some 100], [some 0]⟩
def playerW1 : Player := ⟨0, 0, 0, 5, [some 100, some 101], [some 0]⟩

def playerW2 : Player := ⟨3, 4, 9, 3, [some 101, some 100], [some 2, some 0]⟩

/-! ### Basic lemmas about the JS array primitives -/

theorem jsIndexOf_eq_neg_one_iff (l : List JsVal) (a : JsVal) :
    jsIndexOf l a = -1 ↔ a ∉ l := by
  unfold jsIndexOf
  cases h : l.findIdx? (fun b => b == a) with
  | none =>
    rw [List.findIdx?_eq_none_iff] at h
    constructor
    · intro _ hmem
      have := h a hmem
      simp at this
    · intro _
      rfl
  | some i =>
    rw [List.findIdx?_eq_some_iff_getElem] at h
    obtain ⟨hi, hp, _⟩ := h
    simp only [beq_iff_eq] at hp
    constructor
    · intro habs
      exact absurd habs (by simp [Int.ofNat])
    · intro hnotmem
      exact absurd (hp ▸ List.getElem_mem hi) hnotmem

theorem jsIndexOf_mem_eq (l : List JsVal) (a : JsVal) (i : Nat) (hi : i < l.length)
    (ha : l.get ⟨i, hi⟩ = a)
    (hfirst : ∀ j (hj : j < i), l.get ⟨j, Nat.lt_trans hj hi⟩ ≠ a) :
    jsIndexOf l a = Int.ofNat i := by
  unfold jsIndexOf
  have hfind : l.findIdx? (fun b => b == a) = some i := by
    rw [List.findIdx?_eq_some_iff_getElem]
    refine ⟨hi, ?_, ?_⟩
    · rw [← ha]
      simp [List.get_eq_getElem]
    · intro j hj
      have := hfirst j hj
      simp only [List.get_eq_getElem] at this
      simp [this]
  rw [hfind]

theorem hasMaterial_iff (p : Player) (a : JsVal) :
    p.hasMaterial a = true ↔ a ∈ p.heldMaterials := by
  unfold Player.hasMaterial
  rw [bne_iff_ne]
  constructor
  · intro h
    by_contra hmem
    exact h ((jsIndexOf_eq_neg_one_iff _ a).mpr hmem)
  · intro hmem h
    exact ((jsIndexOf_eq_neg_one_iff _ a).mp h) hmem

theorem hasPuzzleObject_iff (p : Player) (a : JsVal) :
    p.hasPuzzleObject a = true ↔ a ∈ p.heldPuzzleObjects := by
  unfold Player.hasPuzzleObject
  rw [bne_iff_ne]
  constructor
  · intro h
    by_contra hmem
    exact h ((jsIndexOf_eq_neg_one_iff _ a).mpr hmem)
  · intro hmem h
    exact ((jsIndexOf_eq_neg_one_iff _ a).mp h) hmem

theorem jsIndexOf_append_singleton (l : List JsVal) (a : JsVal) (h : a ∉ l) :
    jsIndexOf (l ++ [a]) a = Int.ofNat l.length := by
  have hi : l.length < (l ++ [a]).length := by simp
  apply jsIndexOf_mem_eq (l ++ [a]) a l.length hi
  · simp [List.get_eq_getElem]
  · intro j hj hEq
    have hmem : (l ++ [a]).get ⟨j, Nat.lt_trans hj hi⟩ ∈ l := by
      simp only [List.get_eq_getElem]
      rw [List.getElem_append_left hj]
      exact List.getElem_mem hj
    rw [hEq] at hmem
    exact h hmem

theorem jsSpliceDelete1_last (l : List JsVal) (a : JsVal) :
    jsSpliceDelete1 (l ++ [a]) (Int.ofNat l.length) = l := by
  unfold jsSpliceDelete1 jsSpliceStart
  have h1 : ¬ (Int.ofNat l.length < 0) := not_lt.mpr (Int.ofNat_nonneg _)
  simp only [if_neg h1]
  have h2 : (Int.ofNat l.length).toNat = l.length := rfl
  rw [h2]
  have h3 : min l.length (l ++ [a]).length = l.length := by simp
  rw [h3]
  simp [List.take_append_of_le_length (Nat.le_refl _), List.drop_append_of_le_length]

theorem jsSpliceReplace1_set (l : List JsVal) (i : Nat) (x : JsVal) (hi : i < l.length) :
    jsSpliceReplace1 l (Int.ofNat i) x = l.set i x := by
  unfold jsSpliceReplace1 jsSpliceStart
  have h1 : ¬ (Int.ofNat i < 0) := not_lt.mpr (Int.ofNat_nonneg _)
  simp only [if_neg h1]
  have h2 : (Int.ofNat i).toNat = i := rfl
  rw [h2]
  have h3 : min i l.length = i := Nat.min_eq_left (Nat.le_of_lt hi)
  rw [h3, List.set_eq_take_append_cons_drop, if_pos hi]

/-! ### Specification of `jsFindE` on throw-free inputs -/

theorem jsFindE_spec (pred : JsVal → Except String Bool) (l : List JsVal)
    (htot : ∀ a ∈ l, ∃ b, pred a = Except.ok b) :
    (jsFindE pred l = Except.ok none ∧ ∀ a ∈ l, pred a = Except.ok false) ∨
    (∃ i, ∃ hi : i < l.length,
      pred (l.get ⟨i, hi⟩) = Except.ok true ∧
      (∀ j (hj : j < i), pred (l.get ⟨j, Nat.lt_trans hj hi⟩) = Except.ok false) ∧
      jsFindE pred l = Except.ok (some (l.get ⟨i, hi⟩))) := by
  induction l with
  | nil =>
    left
    exact ⟨rfl, by simp⟩
  | cons a rest ih =>
    obtain ⟨b, hb⟩ := htot a (List.mem_cons_self a rest)
    cases b with
    | true =>
      right
      refine ⟨0, Nat.succ_pos _, ?_, ?_, ?_⟩
      · simpa using hb
      · intro j hj
        exact absurd hj (Nat.not_lt_zero j)
      · simp [jsFindE, hb]
    | false =>
      have htot2 : ∀ x ∈ rest, ∃ b, pred x = Except.ok b :=
        fun x hx => htot x (List.mem_cons_of_mem a hx)
      rcases ih htot2 with ⟨hnone, hall⟩ | ⟨i, hi, hti, hfj, hres⟩
      · left
        constructor
        · simp [jsFindE, hb, hnone]
        · intro x hx
          rcases List.mem_cons.mp hx with rfl | hx2
          · exact hb
          · exact hall x hx2
      · right
        refine ⟨i + 1, Nat.succ_lt_succ hi, ?_, ?_, ?_⟩
        · simpa using hti
        · intro j hj
          cases j with
          | zero => simpa using hb
          | succ j => simpa using hfj j (Nat.lt_of_succ_lt_succ hj)
        · simpa [jsFindE, hb] using hres

theorem jsFindE_ok_none (pred : JsVal → Except String Bool) (l : List JsVal)
    (h : ∀ a ∈ l, pred a = Except.ok false) :
    jsFindE pred l = Except.ok none := by
  induction l with
  | nil => rfl
  | cons a rest ih =>
    have ha := h a (List.mem_cons_self a rest)
    simp only [jsFindE, ha]
    exact ih (fun x hx => h x (List.mem_cons_of_mem a hx))

/-! ### Reverse lookup and round trips through a registry -/

theorem find?_key_of_nodup (reg : Registry) (e : String × Ref)
    (hnd : (reg.map Prod.fst).Nodup) (he : e ∈ reg) :
    reg.find? (fun x => x.1 == e.1) = some e := by
  induction reg with
  | nil => cases he
  | cons hd tl ih =>
    rw [List.map_cons, List.nodup_cons] at hnd
    rcases List.mem_cons.mp he with rfl | he2
    · simp [List.find?_cons]
    · have hne : (hd.1 == e.1) = false := by
        rw [beq_eq_false_iff_ne]
        intro hk
        exact hnd.1 (hk ▸ List.mem_map_of_mem Prod.fst he2)
      rw [List.find?_cons, hne]
      exact ih hnd.2 he2

theorem reverseLookup_roundtrip (reg : Registry) (msg : String) (v : JsVal)
    (hnd : (reg.map Prod.fst).Nodup) (hv : isRegValue reg v = true) :
    ∃ k, reverseLookup reg msg v = Except.ok k ∧ regGet reg k = v := by
  unfold isRegValue at hv
  rw [List.any_eq_true] at hv
  obtain ⟨e, he, hev⟩ := hv
  have hsome : (reg.find? (fun en => (some en.2 : JsVal) == v)).isSome :=
    List.find?_isSome.mpr ⟨e, he, hev⟩
  obtain ⟨e0, he0⟩ := Option.isSome_iff_exists.mp hsome
  have he0mem := List.mem_of_find?_eq_some he0
  have he0v : (some e0.2 : JsVal) = v := by
    have := List.find?_some he0
    rwa [beq_iff_eq] at this
  refine ⟨e0.1, ?_, ?_⟩
  · unfold reverseLookup
    rw [he0]
  · unfold regGet
    rw [find?_key_of_nodup reg e0 hnd he0mem]
    simpa using he0v

theorem reverseLookup_error_iff (reg : Registry) (msg : String) (v : JsVal) :
    (∃ e, reverseLookup reg msg v = Except.error e) ↔ isRegValue reg v = false := by
  unfold reverseLookup isRegValue
  cases h : reg.find? (fun e => (some e.2 : JsVal) == v) with
  | none =>
    rw [List.find?_eq_none] at h
    simp only [h]
    constructor
    · intro _
      rw [List.any_eq_false]
      intro e he
      simp [h e he]
    · intro _
      exact ⟨msg, rfl⟩
  | some e =>
    simp only [h]
    constructor
    · intro ⟨e2, he2⟩
      cases he2
    · intro hfalse
      rw [List.any_eq_false] at hfalse
      have := hfalse e (List.mem_of_find?_eq_some h)
      rw [List.find?_some h] at this
      exact absurd rfl this

theorem mapM_section (g : JsVal → Except String String) (h : String → JsVal)
    (l : List JsVal) (hl : ∀ v ∈ l, ∃ k, g v = Except.ok k ∧ h k = v) :
    ∃ ks, l.mapM g = Except.ok ks ∧ ks.map h = l := by
  induction l with
  | nil =>
    refine ⟨[], ?_, rfl⟩
    rw [List.mapM_nil]
    rfl
  | cons a rest ih =>
    obtain ⟨k, hk, hkv⟩ := hl a (List.mem_cons_self a rest)
    obtain ⟨ks, hks, hmap⟩ := ih (fun v hv => hl v (List.mem_cons_of_mem a hv))
    refine ⟨k :: ks, ?_, by simp [hmap, hkv]⟩
    rw [List.mapM_cons, hk, hks]
    rfl

/-! ### Effect of the inventory mutators, one step and folded -/

theorem takeMaterial_append (p : Player) (a : JsVal)
    (hlen : p.heldMaterials.length < p.materialInventorySize)
    (hmem : a ∉ p.heldMaterials) :
    p.takeMaterial a = { p with heldMaterials := p.heldMaterials ++ [a] } := by
  unfold Player.takeMaterial
  rw [if_neg (by omega)]
  rw [if_neg ?hnm]
  case hnm =>
    intro hhas
    exact hmem ((hasMaterial_iff p a).mp hhas)

theorem takeMaterial_rejected (p : Player) (a : JsVal)
    (h : p.heldMaterials.length ≥ p.materialInventorySize ∨ a ∈ p.heldMaterials) :
    p.takeMaterial a = p := by
  unfold Player.takeMaterial
  rcases h with hlen | hmem
  · rw [if_pos hlen]
  · by_cases hlen : p.heldMaterials.length ≥ p.materialInventorySize
    · rw [if_pos hlen]
    · rw [if_neg hlen, if_pos ((hasMaterial_iff p a).mpr hmem)]

theorem foldl_takePuzzleObject (l : List JsVal) (p : Player) :
    l.foldl Player.takePuzzleObject p =
      { p with heldPuzzleObjects := p.heldPuzzleObjects ++ l } := by
  induction l generalizing p with
  | nil => simp
  | cons a rest ih =>
    rw [List.foldl_cons, ih]
    simp [Player.takePuzzleObject]

theorem foldl_takeMaterial (l : List JsVal) (p : Player)
    (hcap : p.heldMaterials.length + l.length ≤ p.materialInventorySize)
    (hfresh : ∀ v ∈ l, v ∉ p.heldMaterials)
    (hnd : l.Nodup) :
    l.foldl Player.takeMaterial p = { p with heldMaterials := p.heldMaterials ++ l } := by
  induction l generalizing p with
  | nil => simp
  | cons a rest ih =>
    rw [List.nodup_cons] at hnd
    have hstep := takeMaterial_append p a (by simp at hcap; omega)
      (hfresh a (List.mem_cons_self a rest))
    rw [List.foldl_cons, hstep]
    have hres := ih { p with heldMaterials := p.heldMaterials ++ [a] }
      (by simp at hcap ⊢; omega)
      (by
        intro v hv
        simp only [List.mem_append, List.mem_singleton]
        rintro (hv2 | rfl)
        · exact hfresh v (List.mem_cons_of_mem a hv) hv2
        · exact hnd.1 hv)
      hnd.2
    rw [hres]
    simp

theorem tick_other_fields (p : Player) (dt : Rat) :
    (p.tick dt).y = p.y ∧ (p.tick dt).targetX = p.targetX ∧
    (p.tick dt).materialInventorySize = p.materialInventorySize ∧
    (p.tick dt).heldMaterials = p.heldMaterials ∧
    (p.tick dt).heldPuzzleObjects = p.heldPuzzleObjects := by
  unfold Player.tick
  by_cases h1 : p.x > p.targetX
  · simp [h1]
  · by_cases h2 : p.x < p.targetX <;> simp [h1, h2]

theorem foldl_takeMaterial_le (ms : List JsVal) (p : Player)
    (h : p.heldMaterials.length ≤ p.materialInventorySize) :
    (ms.foldl Player.takeMaterial p).heldMaterials.length ≤ p.materialInventorySize ∧
    (ms.foldl Player.takeMaterial p).materialInventorySize = p.materialInventorySize := by
  induction ms generalizing p with
  | nil => exact ⟨h, rfl⟩
  | cons a rest ih =>
    rw [List.foldl_cons]
    have hstep : (p.takeMaterial a).heldMaterials.length ≤ p.materialInventorySize ∧
        (p.takeMaterial a).materialInventorySize = p.materialInventorySize := by
      unfold Player.takeMaterial
      by_cases h1 : p.heldMaterials.length ≥ p.materialInventorySize
      · rw [if_pos h1]
        exact ⟨h, rfl⟩
      · rw [if_neg h1]
        by_cases h2 : p.hasMaterial a = true
        · rw [if_pos h2]
          exact ⟨h, rfl⟩
        · rw [if_neg h2]
          refine ⟨?_, rfl⟩
          simp only [List.length_append, List.length_singleton]
          omega
    have hrec := ih (p.takeMaterial a) (by rw [hstep.2]; exact hstep.1)
    exact ⟨by rw [← hstep.2]; exact hrec.1, by rw [hrec.2]; exact hstep.2⟩

/-- Claim C3: for every player whose held-materials list respects the
capacity bound, no sequence of `takeMaterial` calls ever pushes the list
length past `materialInventorySize`; and a `takeMaterial` call made when the
list already has `materialInventorySize` elements returns the player
unchanged (the capacity guard `length >= materialInventorySize` fires). -/
theorem claim_C3_capacity_invariant (p : Player)
    (hinv : p.heldMaterials.length ≤ p.materialInventorySize) :
    (∀ ms : List JsVal,
      (ms.foldl Player.takeMaterial p).heldMaterials.length ≤ p.materialInventorySize) ∧
    (∀ m : JsVal, p.heldMaterials.length = p.materialInventorySize →
      p.takeMaterial m = p) := by
  constructor
  · intro ms
    exact (foldl_takeMaterial_le ms p hinv).1
  · intro m hfull
    exact takeMaterial_rejected p m (Or.inl (Nat.le_of_eq hfull.symm))

/-- Witness for C3 at a concrete player with capacity 2 holding one
material: three further distinct take attempts stay within the cap, and a
take at the full inventory is the identity. -/
theorem claim_C3_capacity_invariant_witness :
    playerW3.heldMaterials.length ≤ playerW3.materialInventorySize ∧
    (([some 101, some 102, some 103].foldl Player.takeMaterial
        playerW3).heldMaterials.length ≤ playerW3.materialInventorySize ∧
      (playerW3.takeMaterial (some 101)).takeMaterial (some 102) =
        playerW3.takeMaterial (some 101)) := by
  have h := claim_C3_capacity_invariant playerW3 (by decide)
  refine ⟨by decide, h.1 [some 101, some 102, some 103], ?_⟩
  exact (claim_C3_capacity_invariant (playerW3.takeMaterial (some 101))
    (by decide)).2 (some 102) (by decide)

/-- Claim C4: taking a material already held (by reference) is rejected:
the call returns the player unchanged, so in particular the held-materials
list keeps its contents and length. -/
theorem claim_C4_duplicate_rejected (p : Player) (m : JsVal)
    (h : p.hasMaterial m = true) :
    p.takeMaterial m = p :=
  takeMaterial_rejected p m (Or.inr ((hasMaterial_iff p m).mp h))

/-- Witness for C4: the player holding material 100 re-takes it and is
unchanged. -/
theorem claim_C4_duplicate_rejected_witness :
    playerW4.hasMaterial (some 100) = true ∧
    playerW4.takeMaterial (some 100) = playerW4 :=
  ⟨by decide, claim_C4_duplicate_rejected playerW4 (some 100) (by decide)⟩

/-- Claim C5: `takePuzzleObject` appends unconditionally — for every player
(already holding the object or not, regardless of how many objects are
held) the held-puzzle-objects list becomes the old list with the object
appended, so its length always grows by exactly one. -/
theorem claim_C5_takePuzzleObject_unconditional (p : Player) (o : JsVal) :
    (p.takePuzzleObject o).heldPuzzleObjects = p.heldPuzzleObjects ++ [o] ∧
    (p.takePuzzleObject o).heldPuzzleObjects.length =
      p.heldPuzzleObjects.length + 1 := by
  refine ⟨rfl, ?_⟩
  simp [Player.takePuzzleObject]

/-- Claim C7: `canReach(x, y)` holds exactly when the horizontal distance
`|x - player.x|` is strictly below 200, and the result never depends on
`y`. -/
theorem claim_C7_canReach (p : Player) (x y : Rat) :
    (p.canReach x y = true ↔ |x - p.x| < 200) ∧
    (∀ y2 : Rat, p.canReach x y = p.canReach x y2) := by
  constructor
  · unfold Player.canReach
    exact decide_eq_true_iff
  · intro y2
    rfl

/-- Witness for C7: a player at the origin can reach x = 199 (any y) but
the bound is strict. -/
theorem claim_C7_canReach_witness :
    (Player.canReach ⟨0, 0, 0, 5, [], []⟩ 199 1234 = true) ∧
    |(199 : Rat) - (0 : Rat)| < 200 ∧
    Player.canReach ⟨0, 0, 0, 5, [], []⟩ 199 1234 =
      Player.canReach ⟨0, 0, 0, 5, [], []⟩ 199 (-50) := by
  have h := claim_C7_canReach ⟨0, 0, 0, 5, [], []⟩ 199 1234
  refine ⟨h.1.mpr (by norm_num), by norm_num, h.2 (-50)⟩

/-- Claim C8: for `dt >= 0`, `tick(dt)` moves `x` toward `targetX` by at
most `500 * dt`, clamping at `targetX` (never overshooting): within
`500 * dt` of the target the new `x` is exactly `targetX`, otherwise `x`
changes by exactly `500 * dt` in the direction of the target; every other
field is unchanged. -/
theorem claim_C8_tick_clamped (p : Player) (dt : Rat) (_hdt : 0 ≤ dt) :
    ((|p.x - p.targetX| ≤ 500 * dt → (p.tick dt).x = p.targetX) ∧
     (|p.x - p.targetX| > 500 * dt →
       ((p.x > p.targetX → (p.tick dt).x = p.x - 500 * dt) ∧
        (p.x < p.targetX → (p.tick dt).x = p.x + 500 * dt)))) ∧
    (p.tick dt).y = p.y ∧ (p.tick dt).targetX = p.targetX ∧
    (p.tick dt).materialInventorySize = p.materialInventorySize ∧
    (p.tick dt).heldMaterials = p.heldMaterials ∧
    (p.tick dt).heldPuzzleObjects = p.heldPuzzleObjects := by
  refine ⟨⟨?_, ?_⟩, tick_other_fields p dt⟩
  · intro hle
    unfold Player.tick
    by_cases h1 : p.x > p.targetX
    · rw [if_pos h1]
      have habs : |p.x - p.targetX| = p.x - p.targetX := abs_of_pos (by linarith)
      rw [habs] at hle
      show max (p.x - 500 * dt) p.targetX = p.targetX
      exact max_eq_right (by linarith)
    · by_cases h2 : p.x < p.targetX
      · rw [if_neg h1, if_pos h2]
        have habs : |p.x - p.targetX| = -(p.x - p.targetX) := abs_of_neg (by linarith)
        rw [habs] at hle
        show min (p.x + 500 * dt) p.targetX = p.targetX
        exact min_eq_right (by linarith)
      · rw [if_neg h1, if_neg h2]
        linarith
  · intro hgt
    constructor
    · intro h1
      unfold Player.tick
      rw [if_pos h1]
      have habs : |p.x - p.targetX| = p.x - p.targetX := abs_of_pos (by linarith)
      rw [habs] at hgt
      show max (p.x - 500 * dt) p.targetX = p.x - 500 * dt
      exact max_eq_left (by linarith)
    · intro h2
      have h1 : ¬ (p.x > p.targetX) := by linarith
      unfold Player.tick
      rw [if_neg h1, if_pos h2]
      have habs : |p.x - p.targetX| = -(p.x - p.targetX) := abs_of_neg (by linarith)
      rw [habs] at hgt
      show min (p.x + 500 * dt) p.targetX = p.x + 500 * dt
      exact min_eq_left (by linarith)

/-- Witness for C8: a player at x = 1000 heading to 0 with dt = 1 is still
500 * 1 away from the target, so x drops by exactly 500 and nothing else
moves; with dt = 10 it lands exactly on the target. -/
theorem claim_C8_tick_clamped_witness :
    (0 : Rat) ≤ 1 ∧
    |playerW8.x - playerW8.targetX| > 500 * (1 : Rat) ∧
    playerW8.x > playerW8.targetX ∧
    (playerW8.tick 1).x = playerW8.x - 500 * 1 ∧
    (playerW8.tick 1).y = playerW8.y ∧
    (|playerW8.x - playerW8.targetX| ≤ 500 * (10 : Rat) →
      (playerW8.tick 10).x = playerW8.targetX) := by
  have h1 := claim_C8_tick_clamped playerW8 1 (by norm_num)
  have h10 := claim_C8_tick_clamped playerW8 10 (by norm_num)
  have hfar : |playerW8.x - playerW8.targetX| > 500 * (1 : Rat) := by
    show |(1000 : Rat) - 0| > 500 * 1
    norm_num
  have hgt : playerW8.x > playerW8.targetX := by
    show (1000 : Rat) > 0
    norm_num
  exact ⟨by norm_num, hfar, hgt, ((h1.1.2 hfar).1 hgt), h1.2.1, h10.1.1⟩

/-- Claim C10 (implicit behavior of the source): `tossPuzzleObject(o)` on a
player that does not hold `o` computes `indexOf(o) = -1`, and
`splice(-1, 1)` deletes the final entry: a non-empty inventory loses its
last element even though `o` was never held, and an empty inventory stays
empty. -/
theorem claim_C10_toss_absent (p : Player) (o : JsVal)
    (habsent : o ∉ p.heldPuzzleObjects) :
    (p.heldPuzzleObjects ≠ [] →
      (p.tossPuzzleObject o).heldPuzzleObjects = p.heldPuzzleObjects.dropLast) ∧
    (p.heldPuzzleObjects = [] →
      (p.tossPuzzleObject o).heldPuzzleObjects = []) := by
  have hidx : jsIndexOf p.heldPuzzleObjects o = -1 :=
    (jsIndexOf_eq_neg_one_iff _ o).mpr habsent
  constructor
  · intro hne
    unfold Player.tossPuzzleObject
    rw [hidx]
    show jsSpliceDelete1 p.heldPuzzleObjects (-1) = p.heldPuzzleObjects.dropLast
    unfold jsSpliceDelete1 jsSpliceStart
    have hlen : 1 ≤ p.heldPuzzleObjects.length := by
      cases h : p.heldPuzzleObjects with
      | nil => exact absurd h hne
      | cons a l => simp [h]
    rw [if_pos (by omega)]
    have hs : (max ((p.heldPuzzleObjects.length : Int) + (-1)) 0).toNat =
        p.heldPuzzleObjects.length - 1 := by omega
    rw [hs]
    show p.heldPuzzleObjects.take (p.heldPuzzleObjects.length - 1) ++
        p.heldPuzzleObjects.drop (p.heldPuzzleObjects.length - 1 + 1) =
      p.heldPuzzleObjects.dropLast
    have hdrop : p.heldPuzzleObjects.drop (p.heldPuzzleObjects.length - 1 + 1) = [] :=
      List.drop_eq_nil_of_le (by omega)
    rw [hdrop, List.append_nil, List.dropLast_eq_take]
  · intro hnil
    unfold Player.tossPuzzleObject
    rw [hidx]
    show jsSpliceDelete1 p.heldPuzzleObjects (-1) = []
    rw [hnil]
    rfl

/-- Witness for C10: tossing the never-held object 4 from a player holding
the objects 0 and 3 deletes the final entry (object 3); tossing from an
empty inventory leaves it empty. -/
theorem claim_C10_toss_absent_witness :
    (some 4 : JsVal) ∉ playerW10.heldPuzzleObjects ∧
    playerW10.heldPuzzleObjects ≠ [] ∧
    (playerW10.tossPuzzleObject (some 4)).heldPuzzleObjects = [some 0] ∧
    (Player.tossPuzzleObject ⟨0, 0, 0, 5, [], []⟩ (some 4)).heldPuzzleObjects = [] := by
  have h := claim_C10_toss_absent playerW10 (some 4) (by decide)
  have h0 := claim_C10_toss_absent ⟨0, 0, 0, 5, [], []⟩ (some 4) (by decide)
  exact ⟨by decide, by decide, h.1 (by decide), h0.2 rfl⟩

/-- Counterexample to C6 as stated: a fresh player bound to the spawner of
definition 0 acquires it (so `isVisible()` is false), and the later
operation `tossPuzzleObject` on that very definition makes `isVisible()`
true again — the pickup is not one-shot under the remaining operations. -/
theorem claim_C6_counterexample :
    PuzzleObjectSpawner.isVisible spawnerC6
       (some (playerC6.takePuzzleObject (some 0))) = false ∧
    PuzzleObjectSpawner.isVisible spawnerC6
       (some ((playerC6.takePuzzleObject (some 0)).tossPuzzleObject (some 0))) = true := by
  exact ⟨rfl, rfl⟩

/-- Claim C6 (amended): when the bound player acquires the spawner's
definition, `isVisible()` becomes false, and it stays false exactly as long
as the player still holds that definition; it is not one-shot: a subsequent
`tossPuzzleObject` on the definition (the inverse operation, also reached
through `placePuzzleObject` into an accepting furnace) removes the
definition from the held list and makes `isVisible()` true again. -/
theorem claim_C6_visibility_tracks_holding (s : PuzzleObjectSpawner) (p : Player) :
    (PuzzleObjectSpawner.isVisible s
       (some (p.takePuzzleObject (some s.puzzleObject))) = false) ∧
    (∀ q : Player, q.hasPuzzleObject (some s.puzzleObject) = true →
      PuzzleObjectSpawner.isVisible s (some q) = false) ∧
    (p.hasPuzzleObject (some s.puzzleObject) = false →
      PuzzleObjectSpawner.isVisible s
        (some ((p.takePuzzleObject (some s.puzzleObject)).tossPuzzleObject
          (some s.puzzleObject))) = true) := by
  refine ⟨?_, ?_, ?_⟩
  · have hmem : (some s.puzzleObject : JsVal) ∈
        (p.takePuzzleObject (some s.puzzleObject)).heldPuzzleObjects := by
      unfold Player.takePuzzleObject
      simp
    show (!((p.takePuzzleObject (some s.puzzleObject)).hasPuzzleObject
        (some s.puzzleObject))) = false
    rw [(hasPuzzleObject_iff _ _).mpr hmem]
    rfl
  · intro q hq
    show (!(q.hasPuzzleObject (some s.puzzleObject))) = false
    rw [hq]
    rfl
  · intro hnot
    have habsent : (some s.puzzleObject : JsVal) ∉ p.heldPuzzleObjects := by
      intro hmem
      rw [(hasPuzzleObject_iff _ _).mpr hmem] at hnot
      cases hnot
    have htoss : ((p.takePuzzleObject (some s.puzzleObject)).tossPuzzleObject
        (some s.puzzleObject)).heldPuzzleObjects = p.heldPuzzleObjects := by
      unfold Player.tossPuzzleObject Player.takePuzzleObject
      simp only
      rw [jsIndexOf_append_singleton _ _ habsent, jsSpliceDelete1_last]
    have hnot2 : ((p.takePuzzleObject (some s.puzzleObject)).tossPuzzleObject
        (some s.puzzleObject)).hasPuzzleObject (some s.puzzleObject) = false := by
      rw [Bool.eq_false_iff]
      intro htrue
      rw [hasPuzzleObject_iff, htoss] at htrue
      exact habsent htrue
    show (!(((p.takePuzzleObject (some s.puzzleObject)).tossPuzzleObject
        (some s.puzzleObject)).hasPuzzleObject (some s.puzzleObject))) = true
    rw [hnot2]
    rfl

/-- Witness for C6 (amended) at the concrete spawner/player pair of the
counterexample: acquisition hides the spawner, holding keeps it hidden, and
tossing reveals it again. -/
theorem claim_C6_visibility_tracks_holding_witness :
    (PuzzleObjectSpawner.isVisible spawnerC6
       (some (playerC6.takePuzzleObject (some 0))) = false) ∧
    (playerC6.takePuzzleObject (some 0)).hasPuzzleObject (some 0) = true ∧
    playerC6.hasPuzzleObject (some 0) = false ∧
    (PuzzleObjectSpawner.isVisible spawnerC6
       (some ((playerC6.takePuzzleObject (some 0)).tossPuzzleObject (some 0))) = true) := by
  have h := claim_C6_visibility_tracks_holding spawnerC6 playerC6
  exact ⟨h.1, by decide, by decide, h.2.2 (by decide)⟩

theorem reverseLookup_ok_of_isRegValue (reg : Registry) (msg : String) (v : JsVal)
    (hv : isRegValue reg v = true) :
    ∃ k, reverseLookup reg msg v = Except.ok k := by
  unfold isRegValue at hv
  rw [List.any_eq_true] at hv
  obtain ⟨e, he, hev⟩ := hv
  have hsome : (reg.find? (fun en => (some en.2 : JsVal) == v)).isSome :=
    List.find?_isSome.mpr ⟨e, he, hev⟩
  obtain ⟨e0, he0⟩ := Option.isSome_iff_exists.mp hsome
  refine ⟨e0.1, ?_⟩
  unfold reverseLookup
  rw [he0]

theorem jsFindE_ok_exists (pred : JsVal → Except String Bool) (l : List JsVal)
    (htot : ∀ a ∈ l, ∃ b, pred a = Except.ok b) :
    ∃ res, jsFindE pred l = Except.ok res := by
  rcases jsFindE_spec pred l htot with ⟨h, _⟩ | ⟨i, hi, _, _, h⟩
  · exact ⟨none, h⟩
  · exact ⟨some (l.get ⟨i, hi⟩), h⟩

theorem typePred_total (reg : Registry) (msg : String) (target : String)
    (l : List JsVal) (hwf : ∀ v ∈ l, isRegValue reg v = true) :
    ∀ v ∈ l, ∃ b, (reverseLookup reg msg v).map (fun t => t == target) = Except.ok b := by
  intro v hv
  obtain ⟨k, hk⟩ := reverseLookup_ok_of_isRegValue reg msg v (hwf v hv)
  refine ⟨k == target, ?_⟩
  rw [hk]
  rfl

theorem applyPotion_ok (matsReg : Registry) (p : Player) (potion : Potion)
    (hwfm : ∀ v ∈ p.heldMaterials, isRegValue matsReg v = true)
    (hwfp : ∀ v ∈ p.heldPuzzleObjects, isRegValue puzzleObjects v = true) :
    ∃ res, p.applyPotion matsReg potion = Except.ok res := by
  obtain ⟨mres, hmres⟩ := jsFindE_ok_exists
    (fun mat => (getMaterialType matsReg mat).map (fun t => t == potion.applyTo))
    p.heldMaterials (typePred_total matsReg "Material not found." potion.applyTo _ hwfm)
  obtain ⟨pres, hpres⟩ := jsFindE_ok_exists
    (fun po => (getPuzzleObjectType po).map (fun t => t == potion.applyTo))
    p.heldPuzzleObjects
    (typePred_total puzzleObjects "PuzzleObject not found." potion.applyTo _ hwfp)
  unfold Player.applyPotion
  rw [hmres, hpres]
  rcases mres with _ | (_ | r)
  · rcases pres with _ | (_ | q)
    · exact ⟨(p, false), rfl⟩
    · exact ⟨(p, false), rfl⟩
    · exact ⟨_, rfl⟩
  · rcases pres with _ | (_ | q)
    · exact ⟨(p, false), rfl⟩
    · exact ⟨(p, false), rfl⟩
    · exact ⟨_, rfl⟩
  · exact ⟨_, rfl⟩

/-- Claim C9: registry lookup failure is the only thrown-error path.
`PuzzleObjectSpawner.deserialize` throws exactly when the persisted key is
absent from the `puzzleObjects` registry (construction aborts), the reverse
lookup `getPuzzleObjectType` throws exactly when the reference is not a
registry value, and `applyPotion` — the one remaining operation whose JS
body can reach a throw, via the reverse lookups inside its searches —
returns without throwing whenever the held items are registry values.  The
other mutators (`takeMaterial`, `takePuzzleObject`, `tossPuzzleObject`,
`moveToCursor`, `tick`) are total state transformers by construction. -/
theorem claim_C9_registry_lookup_only_throw :
    (∀ (data : PuzzleObjectData) (img : Image),
      (∃ e, PuzzleObjectSpawner.deserialize data img = Except.error e) ↔
        regGet puzzleObjects data.puzzleObjectType = none) ∧
    (∀ v : JsVal,
      (∃ e, getPuzzleObjectType v = Except.error e) ↔
        isRegValue puzzleObjects v = false) ∧
    (∀ (matsReg : Registry) (p : Player) (potion : Potion),
      (∀ v ∈ p.heldMaterials, isRegValue matsReg v = true) →
      (∀ v ∈ p.heldPuzzleObjects, isRegValue puzzleObjects v = true) →
      ∃ res, p.applyPotion matsReg potion = Except.ok res) := by
  refine ⟨?_, ?_, ?_⟩
  · intro data img
    cases h : regGet puzzleObjects data.puzzleObjectType with
    | none =>
      constructor
      · intro _
        rfl
      · intro _
        refine ⟨"Cannot find puzzle object with name " ++ data.puzzleObjectType, ?_⟩
        unfold PuzzleObjectSpawner.deserialize
        rw [h]
    | some r =>
      constructor
      · intro ⟨e, he⟩
        unfold PuzzleObjectSpawner.deserialize at he
        rw [h] at he
        cases he
      · intro habs
        cases habs
  · intro v
    exact reverseLookup_error_iff puzzleObjects "PuzzleObject not found." v
  · intro matsReg p potion hwfm hwfp
    exact applyPotion_ok matsReg p potion hwfm hwfp

/-- Witness for C9: deserializing the key `radio` succeeds while the key
`lava` throws; the reverse lookup throws exactly on the non-registry
reference 99; and a potion application on a well-formed player returns
without throwing. -/
theorem claim_C9_registry_lookup_only_throw_witness :
    (∃ e, PuzzleObjectSpawner.deserialize ⟨0, 0, "lava"⟩ ⟨8, 8⟩ = Except.error e) ∧
    ¬ (∃ e, PuzzleObjectSpawner.deserialize ⟨0, 0, "radio"⟩ ⟨8, 8⟩ = Except.error e) ∧
    (∃ e, getPuzzleObjectType (some 99) = Except.error e) ∧
    ¬ (∃ e, getPuzzleObjectType (some 2) = Except.error e) ∧
    (∃ res, playerW9.applyPotion matsRegW ⟨"stone", "gem"⟩ = Except.ok res) := by
  have h := claim_C9_registry_lookup_only_throw
  refine ⟨(h.1 ⟨0, 0, "lava"⟩ ⟨8, 8⟩).mpr (by decide), ?_, ?_, ?_, ?_⟩
  · intro habs
    have := (h.1 ⟨0, 0, "radio"⟩ ⟨8, 8⟩).mp habs
    revert this
    decide
  · exact (h.2.1 (some 99)).mpr (by decide)
  · intro habs
    have := (h.2.1 (some 2)).mp habs
    revert this
    decide
  · exact h.2.2 matsRegW playerW9 ⟨"stone", "gem"⟩ (by decide) (by decide)

theorem isRegValue_some (reg : Registry) (v : JsVal) (hv : isRegValue reg v = true) :
    ∃ r, v = some r := by
  unfold isRegValue at hv
  rw [List.any_eq_true] at hv
  obtain ⟨e, _, hev⟩ := hv
  rw [beq_iff_eq] at hev
  exact ⟨e.2, hev.symm⟩

/-- Claim C1: for a potion with `applyTo = T` and `turnsInto = U` (with `U`
a key of the material registry), on a player whose held items are registry
values: if some held material has registry type `T`, then `applyPotion`
replaces the first such material, in the same inventory slot, with the
material definition for `U` and returns `true` — materials are searched
before puzzle objects, and the puzzle-object inventory is untouched
(visible in the result shape); under the no-duplicates invariant the
replaced instance is no longer held (when the `U` definition is not that
same instance).  If no held material and no held puzzle object has type
`T`, the call returns `false` and leaves both inventories unchanged. -/
theorem claim_C1_applyPotion (matsReg : Registry) (p : Player) (potion : Potion)
    (hwfm : ∀ v ∈ p.heldMaterials, isRegValue matsReg v = true)
    (hwfp : ∀ v ∈ p.heldPuzzleObjects, isRegValue puzzleObjects v = true) :
    (∀ u, regGet matsReg potion.turnsInto = some u →
      (∃ m ∈ p.heldMaterials, getMaterialType matsReg m = Except.ok potion.applyTo) →
      ∃ i, ∃ hi : i < p.heldMaterials.length,
        getMaterialType matsReg (p.heldMaterials.get ⟨i, hi⟩) = Except.ok potion.applyTo ∧
        (∀ j (hj : j < i),
          getMaterialType matsReg (p.heldMaterials.get ⟨j, Nat.lt_trans hj hi⟩) ≠
            Except.ok potion.applyTo) ∧
        p.applyPotion matsReg potion =
          Except.ok ({ p with heldMaterials := p.heldMaterials.set i (some u) }, true) ∧
        (p.heldMaterials.Nodup → (some u : JsVal) ≠ p.heldMaterials.get ⟨i, hi⟩ →
          p.heldMaterials.get ⟨i, hi⟩ ∉ p.heldMaterials.set i (some u))) ∧
    ((∀ m ∈ p.heldMaterials, getMaterialType matsReg m ≠ Except.ok potion.applyTo) →
     (∀ o ∈ p.heldPuzzleObjects, getPuzzleObjectType o ≠ Except.ok potion.applyTo) →
      p.applyPotion matsReg potion = Except.ok (p, false)) := by
  have htotM := typePred_total matsReg "Material not found." potion.applyTo
    p.heldMaterials hwfm
  have htotP := typePred_total puzzleObjects "PuzzleObject not found." potion.applyTo
    p.heldPuzzleObjects hwfp
  constructor
  · rintro u hu ⟨m0, hm0mem, hm0T⟩
    rcases jsFindE_spec
        (fun mat => (getMaterialType matsReg mat).map (fun t => t == potion.applyTo))
        p.heldMaterials htotM with ⟨_, hall⟩ | ⟨i, hi, hti, hfj, hres⟩
    · exfalso
      have hfalse := hall m0 hm0mem
      rw [hm0T] at hfalse
      simp [Except.map] at hfalse
    · have hti0 := hti
      obtain ⟨k, hk⟩ := reverseLookup_ok_of_isRegValue matsReg "Material not found."
        (p.heldMaterials.get ⟨i, hi⟩) (hwfm _ (p.heldMaterials.get_mem i hi))
      have hkgm : getMaterialType matsReg (p.heldMaterials.get ⟨i, hi⟩) = Except.ok k := hk
      rw [hkgm] at hti0
      simp only [Except.map] at hti0
      rw [Except.ok.injEq, beq_iff_eq] at hti0
      have hgetiT : getMaterialType matsReg (p.heldMaterials.get ⟨i, hi⟩) =
          Except.ok potion.applyTo := by
        rw [hkgm, hti0]
      refine ⟨i, hi, hgetiT, ?_, ?_, ?_⟩
      · intro j hj heq
        have hj2 := hfj j hj
        rw [heq] at hj2
        simp [Except.map] at hj2
      · obtain ⟨r, hr⟩ := isRegValue_some matsReg _ (hwfm _ (p.heldMaterials.get_mem i hi))
        obtain ⟨pres, hpres⟩ := jsFindE_ok_exists
          (fun po => (getPuzzleObjectType po).map (fun t => t == potion.applyTo))
          p.heldPuzzleObjects htotP
        have hidx : jsIndexOf p.heldMaterials (some r) = Int.ofNat i := by
          apply jsIndexOf_mem_eq p.heldMaterials (some r) i hi hr
          intro j hj heq
          have hj2 := hfj j hj
          have hji : p.heldMaterials.get ⟨j, Nat.lt_trans hj hi⟩ =
              p.heldMaterials.get ⟨i, hi⟩ := by rw [heq, hr]
          rw [hji] at hj2
          rw [hti] at hj2
          simp at hj2
        unfold Player.applyPotion
        simp only [hres, hpres, hr]
        rw [hidx, jsSpliceReplace1_set _ _ _ hi, hu]
      · intro hnd hneq hmem
        obtain ⟨n, hget⟩ := List.mem_iff_get.mp hmem
        have hn : (n : Nat) < p.heldMaterials.length := by
          have := n.2
          simpa [List.length_set] using this
        by_cases hij : i = (n : Nat)
        · have hval : (p.heldMaterials.set i (some u)).get n = some u := by
            simp [List.get_eq_getElem, List.getElem_set, hij]
          rw [hval] at hget
          exact hneq hget
        · have hval : (p.heldMaterials.set i (some u)).get n =
              p.heldMaterials.get ⟨n, hn⟩ := by
            simp [List.get_eq_getElem, List.getElem_set, hij]
          rw [hval] at hget
          have hfin := (hnd.get_inj_iff).mp hget
          exact hij (congrArg Fin.val hfin).symm
  · intro hnoM hnoP
    have hallM : ∀ v ∈ p.heldMaterials,
        (fun mat => (getMaterialType matsReg mat).map (fun t => t == potion.applyTo)) v =
          Except.ok false := by
      intro v hv
      obtain ⟨k, hk⟩ := reverseLookup_ok_of_isRegValue matsReg "Material not found." v
        (hwfm v hv)
      have hkgm : getMaterialType matsReg v = Except.ok k := hk
      have hkT : k ≠ potion.applyTo := by
        intro hkeq
        exact hnoM v hv (by rw [hkgm, hkeq])
      show (getMaterialType matsReg v).map (fun t => t == potion.applyTo) = Except.ok false
      rw [hkgm]
      simp only [Except.map, Except.ok.injEq]
      rw [beq_eq_false_iff_ne]
      exact hkT
    have hallP : ∀ v ∈ p.heldPuzzleObjects,
        (fun po => (getPuzzleObjectType po).map (fun t => t == potion.applyTo)) v =
          Except.ok false := by
      intro v hv
      obtain ⟨k, hk⟩ := reverseLookup_ok_of_isRegValue puzzleObjects
        "PuzzleObject not found." v (hwfp v hv)
      have hkgp : getPuzzleObjectType v = Except.ok k := hk
      have hkT : k ≠ potion.applyTo := by
        intro hkeq
        exact hnoP v hv (by rw [hkgp, hkeq])
      show (getPuzzleObjectType v).map (fun t => t == potion.applyTo) = Except.ok false
      rw [hkgp]
      simp only [Except.map, Except.ok.injEq]
      rw [beq_eq_false_iff_ne]
      exact hkT
    have hresM := jsFindE_ok_none _ _ hallM
    have hresP := jsFindE_ok_none _ _ hallP
    unfold Player.applyPotion
    rw [hresM, hresP]

/-- Witness for C1: the player holding the materials 100 (`wood`) and 101
(`stone`) and the puzzle object 0 drinks a `stone -> gem` potion — some held
material has type `stone` and `gem` is a registry key, so the match branch
applies; a `lava -> gem` potion matches nothing and returns `false`
unchanged. -/
theorem claim_C1_applyPotion_witness :
    regGet matsRegW "gem" = some 102 ∧
    (∃ m ∈ playerW1.heldMaterials, getMaterialType matsRegW m = Except.ok "stone") ∧
    (∃ i, ∃ hi : i < playerW1.heldMaterials.length,
      getMaterialType matsRegW (playerW1.heldMaterials.get ⟨i, hi⟩) = Except.ok "stone" ∧
      (∀ j (hj : j < i),
        getMaterialType matsRegW (playerW1.heldMaterials.get ⟨j, Nat.lt_trans hj hi⟩) ≠
          Except.ok "stone") ∧
      playerW1.applyPotion matsRegW ⟨"stone", "gem"⟩ =
        Except.ok ({ playerW1 with
          heldMaterials := playerW1.heldMaterials.set i (some 102) }, true) ∧
      (playerW1.heldMaterials.Nodup →
        (some 102 : JsVal) ≠ playerW1.heldMaterials.get ⟨i, hi⟩ →
        playerW1.heldMaterials.get ⟨i, hi⟩ ∉ playerW1.heldMaterials.set i (some 102))) ∧
    playerW1.applyPotion matsRegW ⟨"lava", "gem"⟩ = Except.ok (playerW1, false) := by
  have h := claim_C1_applyPotion matsRegW playerW1 ⟨"stone", "gem"⟩ (by decide) (by decide)
  have h2 := claim_C1_applyPotion matsRegW playerW1 ⟨"lava", "gem"⟩ (by decide) (by decide)
  refine ⟨by decide, ⟨some 101, by decide, by decide⟩, ?_, ?_⟩
  · exact h.1 102 (by decide) ⟨some 101, by decide, by decide⟩
  · exact h2.2 (by decide) (by decide)

theorem puzzleObjects_keys_nodup : (puzzleObjects.map Prod.fst).Nodup := by
  decide

/-- Claim C2: serializing a player whose held items are registry values and
whose material inventory respects the capacity and no-duplicate rules, then
running the persisted record back through the constructor (the synchronous
deserialize path), reproduces the position, both held-item lists (their
keys resolve to the same references, in order) and the capacity. -/
theorem claim_C2_serialize_roundtrip (matsReg : Registry) (p : Player)
    (hkeys : (matsReg.map Prod.fst).Nodup)
    (hwfm : ∀ v ∈ p.heldMaterials, isRegValue matsReg v = true)
    (hwfp : ∀ v ∈ p.heldPuzzleObjects, isRegValue puzzleObjects v = true)
    (hcap : p.heldMaterials.length ≤ p.materialInventorySize)
    (hnd : p.heldMaterials.Nodup) :
    ∃ data, p.serialize matsReg = Except.ok data ∧
      (Player.ofData matsReg data).x = p.x ∧
      (Player.ofData matsReg data).y = p.y ∧
      (Player.ofData matsReg data).heldMaterials = p.heldMaterials ∧
      (Player.ofData matsReg data).heldPuzzleObjects = p.heldPuzzleObjects ∧
      (Player.ofData matsReg data).materialInventorySize = p.materialInventorySize := by
  have hmapM : ∀ v ∈ p.heldMaterials,
      ∃ k, getMaterialType matsReg v = Except.ok k ∧ regGet matsReg k = v := by
    intro v hv
    exact reverseLookup_roundtrip matsReg "Material not found." v hkeys (hwfm v hv)
  obtain ⟨ks, hks, hksmap⟩ := mapM_section (getMaterialType matsReg) (regGet matsReg)
    p.heldMaterials hmapM
  have hmapP : ∀ v ∈ p.heldPuzzleObjects,
      ∃ k, getPuzzleObjectType v = Except.ok k ∧ regGet puzzleObjects k = v := by
    intro v hv
    exact reverseLookup_roundtrip puzzleObjects "PuzzleObject not found." v
      puzzleObjects_keys_nodup (hwfp v hv)
  obtain ⟨ps, hps, hpsmap⟩ := mapM_section getPuzzleObjectType (regGet puzzleObjects)
    p.heldPuzzleObjects hmapP
  have hof : Player.ofData matsReg ⟨p.x, p.y, ks, ps, some p.materialInventorySize⟩ =
      (⟨p.x, p.y, p.x, p.materialInventorySize, p.heldMaterials, p.heldPuzzleObjects⟩ :
        Player) := by
    show (ps.foldl (fun q key => q.takePuzzleObject (regGet puzzleObjects key))
        (ks.foldl (fun q key => q.takeMaterial (regGet matsReg key))
          (⟨p.x, p.y, p.x, p.materialInventorySize, [], []⟩ : Player))) =
      (⟨p.x, p.y, p.x, p.materialInventorySize, p.heldMaterials, p.heldPuzzleObjects⟩ :
        Player)
    rw [← List.foldl_map (regGet matsReg) Player.takeMaterial ks
      (⟨p.x, p.y, p.x, p.materialInventorySize, [], []⟩ : Player)]
    rw [hksmap]
    rw [foldl_takeMaterial p.heldMaterials
      (⟨p.x, p.y, p.x, p.materialInventorySize, [], []⟩ : Player)
      (by simpa using hcap) (by simp) hnd]
    rw [← List.foldl_map (regGet puzzleObjects) Player.takePuzzleObject ps _]
    rw [hpsmap]
    rw [foldl_takePuzzleObject]
    rfl
  refine ⟨⟨p.x, p.y, ks, ps, some p.materialInventorySize⟩, ?_, by rw [hof],
    by rw [hof], by rw [hof], by rw [hof], by rw [hof]⟩
  unfold Player.serialize
  rw [hks, hps]

/-- Witness for C2 at a concrete player (capacity 3, two distinct registry
materials, two registry puzzle objects): the serialize/construct round trip
reproduces position, inventories and capacity. -/
theorem claim_C2_serialize_roundtrip_witness :
    ∃ data, playerW2.serialize matsRegW = Except.ok data ∧
      (Player.ofData matsRegW data).x = playerW2.x ∧
      (Player.ofData matsRegW data).y = playerW2.y ∧
      (Player.ofData matsRegW data).heldMaterials = playerW2.heldMaterials ∧
      (Player.ofData matsRegW data).heldPuzzleObjects = playerW2.heldPuzzleObjects ∧
      (Player.ofData matsRegW data).materialInventorySize =
        playerW2.materialInventorySize :=
  claim_C2_serialize_roundtrip matsRegW playerW2 (by decide) (by decide) (by decide)
    (by decide) (by decide)
